import Mathlib

/-!
Shallow embedding of the koofr/go-clouddriveclient request-execution layer:
error normalization (`HandleError`), the retrying request executor
(`CloudDrive.Request`), paginated children listing (`NodeChildren`),
the OAuth credential manager (`ValidToken` / `UpdateRefreshToken`, plus an
interleaving machine for its concurrency behaviour), and the `LookupNode`
filter construction.  External library calls (JSON unmarshalling, the HTTP
transport, the clock, the scheduler) are modelled as explicit oracle
parameters; everything else is translated directly from the Go source.
-/

namespace CloudDriveClient

/-- Error-code constants from consts.go. -/
def ErrorCodeNoActiveSubscriptionFound : String := "NO_ACTIVE_SUBSCRIPTION_FOUND"

/-- Error-code constant from consts.go. -/
def ErrorCodeNodeNotFound : String := "NODE_NOT_FOUND"

/-- Error-code constant from consts.go. -/
def ErrorCodeParentNodeIDNotFound : String := "PARENT_NODE_ID_NOT_FOUND"

/-- Error-code constant from consts.go. -/
def ErrorCodeNameAlreadyExists : String := "NAME_ALREADY_EXISTS"

/-- Error-code constant from consts.go. -/
def ErrorCodeCustomerNotFound : String := "CUSTOMER_NOT_FOUND"

/-- Error-code constant from consts.go. -/
def ErrorCodeTooManyRequests : String := "TOO_MANY_REQUESTS"

/-- Retry-budget default from clouddrive.go (`DefaultMaxRetries = 5`).
Go's `MaxRetries` field is a machine int, so we model it as `Int`. -/
def DefaultMaxRetries : Int := 5

/-- go-httpclient's `InvalidStatusError`: the transport-level failure raised
when a response status is not among the expected ones.  The Go struct carries
`Expected []int`, `Got int`, `Headers http.Header` and `Content string`; the
only header ever read by this repository is `Content-Type`, so headers are
modelled by that one field. -/
structure InvalidStatusError where
  expected : List Nat
  got : Nat
  contentType : String
  content : String
deriving DecidableEq, Repr

/-- errors.go: `CloudDriveError` with JSON fields code/message/logref and the
retained raw transport failure. -/
structure CloudDriveError where
  code : String
  message : String
  logref : String
  httpClientError : Option InvalidStatusError
deriving DecidableEq, Repr

/-- A Go `error` value as seen by this repository: either go-httpclient's
`InvalidStatusError`, an already-normalized `CloudDriveError`, or any other
error (network failure, decode failure, cancellation), carried as text. -/
inductive GoError where
  | invalidStatus (ise : InvalidStatusError)
  | cloudDrive (cde : CloudDriveError)
  | other (msg : String)
deriving DecidableEq, Repr

/-- Result of `json.Unmarshal` of an error body into the
code/message/logref shape.  JSON decoding itself is library code external to
this repository, so it enters the model as an oracle
`String → Option ParsedError`: `some` when unmarshalling succeeds with these
field values (absent JSON fields decode to `""`), `none` when it fails. -/
structure ParsedError where
  code : String
  message : String
  logref : String
deriving DecidableEq, Repr

/-- errors.go, `HandleError`, first block: build the `CloudDriveError` from
the response body.  If the content type is one of the two recognized JSON
error types, unmarshal the body (on unmarshal failure fall back to code
`"unknown"` with the raw body as message), otherwise use that fallback
directly. -/
def parsedBase (parse : String → Option ParsedError) (ise : InvalidStatusError) :
    CloudDriveError :=
  if ise.contentType = "application/vnd.error+json" ∨ ise.contentType = "application/json" then
    match parse ise.content with
    | some p => { code := p.code, message := p.message, logref := p.logref,
                  httpClientError := none }
    | none => { code := "unknown", message := ise.content, logref := "",
                httpClientError := none }
  else
    { code := "unknown", message := ise.content, logref := "",
      httpClientError := none }

/-- errors.go, `HandleError`, second block: the inconsistent-Amazon-404
correction — a 404 whose parsed code is empty and whose message is exactly
"Node does not exists" gets the node-not-found code. -/
def quirk404 (got : Nat) (c : CloudDriveError) : CloudDriveError :=
  if got = 404 ∧ c.code = "" ∧ c.message = "Node does not exists" then
    { c with code := ErrorCodeNodeNotFound }
  else c

/-- errors.go, `HandleError`, third block: on a 429 force the
too-many-requests code and default an empty message to "Rate exceeded". -/
def quirk429 (got : Nat) (c : CloudDriveError) : CloudDriveError :=
  if got = 429 then
    { c with code := ErrorCodeTooManyRequests,
             message := if c.message = "" then "Rate exceeded" else c.message }
  else c

/-- errors.go: `HandleError`.  Non-`InvalidStatusError` failures pass
through unchanged; an `InvalidStatusError` is parsed, run through the two
backend-quirk corrections in order, and returned with the raw failure
retained. -/
def HandleError (parse : String → Option ParsedError) : GoError → GoError
  | .invalidStatus ise =>
    .cloudDrive { quirk429 ise.got (quirk404 ise.got (parsedBase parse ise)) with
                  httpClientError := some ise }
  | .cloudDrive cde => .cloudDrive cde
  | .other msg => .other msg

/-- Projection: the code of a normalized error (empty for non-normalized). -/
def errCode : GoError → String
  | .cloudDrive cde => cde.code
  | _ => ""

/-- Projection: the message of a normalized error. -/
def errMessage : GoError → String
  | .cloudDrive cde => cde.message
  | _ => ""

/-- A raw HTTP response as returned by `CloudDrive.Request` on success (the
executor hands it back undecoded; only its identity matters here). -/
structure HttpResponse where
  statusCode : Nat
  body : String
deriving DecidableEq, Repr

deriving instance DecidableEq for Except

/-- Outcome of one iteration of the retry loop in `CloudDrive.Request`, as
supplied by the environment: either `Auth.ValidToken` fails (the iteration
returns that error raw), or the dispatch `client.Request(currentRequest)`
completes with a response or an error. -/
inductive AttemptResult where
  | tokenErr (e : GoError)
  | dispatch (r : Except GoError HttpResponse)
deriving DecidableEq, Repr

/-- The status test from clouddrive.go's retry loop: is this error a
go-httpclient `InvalidStatusError` whose `Got` is 429 (StatusTooManyRequests)? -/
def is429 : GoError → Bool
  | .invalidStatus ise => ise.got == 429
  | _ => false

/-- clouddrive.go: the body of `CloudDrive.Request`'s
`for retry := 0; retry < retries; retry++` loop.  `env i` is the outcome of
iteration `i` (token fetch plus dispatch); the sleep before a retry does not
affect the returned value and is elided.  Returns the function's result
(`none` encodes reaching the trailing `panic("unreachable")`) together with
the number of iterations executed. -/
def requestLoop (parse : String → Option ParsedError) (env : Nat → AttemptResult)
    (retries : Int) (retry : Nat) : Option (Except GoError HttpResponse) × Nat :=
  if h : (retry : Int) < retries then
    match env retry with
    | .tokenErr e => (some (.error e), 1)
    | .dispatch (.error e) =>
      if is429 e ∧ (retry : Int) + 1 < retries then
        let r := requestLoop parse env retries (retry + 1)
        (r.1, r.2 + 1)
      else
        (some (.error (HandleError parse e)), 1)
    | .dispatch (.ok resp) => (some (.ok resp), 1)
  else
    (none, 0)
termination_by (retries - (retry : Int)).toNat
decreasing_by omega

/-- clouddrive.go: `CloudDrive.Request`.  The retry budget is `MaxRetries`
when the request body is copyable (`request.CanCopy()`), else a single
attempt; then the loop runs from `retry = 0`. -/
def Request (parse : String → Option ParsedError) (env : Nat → AttemptResult)
    (maxRetries : Int) (canCopy : Bool) : Option (Except GoError HttpResponse) × Nat :=
  requestLoop parse env (if canCopy then maxRetries else 1) 0

/-- A node of the remote storage graph (only identity matters to the
pagination claims; the remaining JSON fields are omitted payload). -/
structure Node where
  id : String
  name : String
deriving DecidableEq, Repr

/-- The `Nodes` listing response: a page of children plus the pagination
token (`data`, `count`, `nextToken` in the JSON). -/
structure Nodes where
  nodes : List Node
  count : Int
  nextToken : String
deriving DecidableEq, Repr

/-- clouddrive.go: the unbounded `for` loop of `CloudDrive.NodeChildren`.
`fetch i tok` is the outcome of the `i`-th page request, issued with
`startToken = tok` (the first request sends the empty token, i.e. no
`startToken` parameter).  Go's loop has no bound, so the embedding carries
fuel; `none` means the fuel ran out before the loop exited.  On exit it
returns the accumulated nodes (or the first error) together with the number
of page requests issued. -/
def nodeChildrenLoop (fetch : Nat → String → Except GoError Nodes) :
    Nat → String → List Node → Nat → Option (Except GoError (List Node) × Nat)
  | _, _, _, 0 => none
  | i, tok, acc, fuel + 1 =>
    match fetch i tok with
    | .error e => some (.error e, i + 1)
    | .ok ns =>
      if ns.nodes = [] then some (.ok acc, i + 1)
      else if ns.nextToken = "" then some (.ok (acc ++ ns.nodes), i + 1)
      else nodeChildrenLoop fetch (i + 1) ns.nextToken (acc ++ ns.nodes) fuel

/-- clouddrive.go: `CloudDrive.NodeChildren` starts the loop with an empty
token and an empty accumulator. -/
def NodeChildren (fetch : Nat → String → Except GoError Nodes) (fuel : Nat) :
    Option (Except GoError (List Node) × Nat) :=
  nodeChildrenLoop fetch 0 "" [] fuel

/-- Modelled from the spec: "pagination continues while `nextToken` is
non-empty" — the listing loop as the spec describes it, requesting the next
page and accumulating its nodes as long as the response's `nextToken` is
non-empty, with no other stopping condition.  Kept separate from
`nodeChildrenLoop` (the code) for comparison. -/
def specNodeChildrenLoop (fetch : Nat → String → Except GoError Nodes) :
    Nat → String → List Node → Nat → Option (Except GoError (List Node) × Nat)
  | _, _, _, 0 => none
  | i, tok, acc, fuel + 1 =>
    match fetch i tok with
    | .error e => some (.error e, i + 1)
    | .ok ns =>
      if ns.nextToken = "" then some (.ok (acc ++ ns.nodes), i + 1)
      else specNodeChildrenLoop fetch (i + 1) ns.nextToken (acc ++ ns.nodes) fuel

/-- Modelled from the spec: entry point of the spec's reading of the listing
loop (empty start token, empty accumulator). -/
def specNodeChildren (fetch : Nat → String → Except GoError Nodes) (fuel : Nat) :
    Option (Except GoError (List Node) × Nat) :=
  specNodeChildrenLoop fetch 0 "" [] fuel

/-- The chain of `startToken` values the children loop sends when page `k`
of the listing is `pageOf k`: the first request carries the empty token and
each later request carries the previous page's `nextToken`. -/
def pageTokens (pageOf : Nat → Nodes) : Nat → String
  | 0 => ""
  | k + 1 => (pageOf k).nextToken

/-- clouddrive.go, `CloudDrive.LookupNode`: the escaping applied to the
name before it is spliced into the filter, `strings.Replace(name, "\x22",
"\\\\", -1)` — every double-quote character is replaced by two backslash
characters.  `strings.Replace` is Go library code; for a one-character
pattern it is exactly this character-wise traversal. -/
def goReplaceQuote : List Char → List Char
  | [] => []
  | c :: cs => if c = '"' then '\\' :: '\\' :: goReplaceQuote cs else c :: goReplaceQuote cs

/-- clouddrive.go, `CloudDrive.LookupNode`: the value set for the `filters`
query parameter, built from the parent id and the escaped name. -/
def lookupNodeFilter (parentId : String) (name : String) : String :=
  "parents:" ++ parentId ++ " AND name:\"" ++ String.mk (goReplaceQuote name.data) ++ "\""

/-- auth.go: the JSON body `{expires_in, access_token}` of a successful
token-refresh response. -/
structure RefreshResp where
  expiresIn : Int
  accessToken : String
deriving DecidableEq, Repr

/-- auth.go: the OAuth error body `{error, error_description}` that
`UpdateRefreshToken` tries to recover from a failed refresh. -/
structure RefreshRespError where
  err : String
  errorDescription : String
deriving DecidableEq, Repr

/-- auth.go: `CloudDriveAuth` state.  Times are Unix seconds (`Int`, like
Go's `int64`); the optional `OnTokenRefresh` hook is modelled by its
presence, since only whether it fires is observable here. -/
structure CloudDriveAuth where
  clientId : String
  clientSecret : String
  redirectUri : String
  accessToken : String
  refreshToken : String
  expiresAt : Int
  hasHook : Bool
deriving DecidableEq, Repr

/-- auth.go: `CloudDriveAuth.UpdateRefreshToken`, sequential behaviour.
`refreshResult` is the outcome of the form-encoded POST to the token
endpoint (decoded `RefreshResp` on a 200, the transport error otherwise) and
`parseOauth` is the `json.Unmarshal` oracle for the OAuth error body.  On
failure the error is normalized by `HandleError` and, when the normalized
message parses as an OAuth error object, its code/message are rewritten; the
state is unchanged.  On success the access token is replaced, expiry becomes
`now + expiresIn`, and the hook fires when present.  Returns
(error?, new state, hook fired?). -/
def UpdateRefreshToken (parse : String → Option ParsedError)
    (parseOauth : String → Option RefreshRespError) (now : Int)
    (refreshResult : Except GoError RefreshResp) (a : CloudDriveAuth) :
    Option GoError × CloudDriveAuth × Bool :=
  match refreshResult with
  | .error e =>
    let e1 := HandleError parse e
    let e2 : GoError :=
      match e1 with
      | .cloudDrive cde =>
        match parseOauth cde.message with
        | some re => .cloudDrive { cde with code := re.err, message := re.errorDescription }
        | none => .cloudDrive cde
      | e1 => e1
    (some e2, a, false)
  | .ok resp =>
    (none,
     { a with accessToken := resp.accessToken, expiresAt := now + resp.expiresIn },
     a.hasHook)

/-- auth.go: `CloudDriveAuth.ValidToken`, sequential behaviour.  Refreshes
when `now > expiresAt - 5*60`, then returns the (possibly updated) access
token.  Returns (result, new state, refresh attempted?, hook fired?). -/
def ValidToken (parse : String → Option ParsedError)
    (parseOauth : String → Option RefreshRespError) (now : Int)
    (refreshResult : Except GoError RefreshResp) (a : CloudDriveAuth) :
    Except GoError String × CloudDriveAuth × Bool × Bool :=
  if now > a.expiresAt - 5 * 60 then
    match UpdateRefreshToken parse parseOauth now refreshResult a with
    | (some e, a1, _) => (.error e, a1, true, false)
    | (none, a1, hook) => (.ok a1.accessToken, a1, true, hook)
  else
    (.ok a.accessToken, a, false, false)

/-- Program counter of one caller executing `ValidToken` in the
interleaving model: about to run the expiry check (`start`); check seen as
expired, about to acquire the refresh mutex (`needRefresh`); holding the
mutex, about to perform the refresh call and release (`locked`); finished
having refreshed (`doneR`); finished without refreshing (`doneN`). -/
inductive CallerPC where
  | start
  | needRefresh
  | locked
  | doneR
  | doneN
deriving DecidableEq, Repr

/-- Shared state of `CloudDriveAuth` under N concurrent `ValidToken`
callers: the token fields mutated by refresh, the mutex (`lockHeld` names
the caller holding it), and each caller's program counter (`pcs.length` is
N). -/
structure AuthSysState where
  expiresAt : Int
  accessToken : String
  lockHeld : Option Nat
  pcs : List CallerPC
deriving DecidableEq, Repr

/-- One atomic step of caller `i` in the interleaving model of
`ValidToken`/`UpdateRefreshToken` at a fixed instant `now`: the unguarded
expiry check (`ValidToken`'s `if`), mutex acquisition (blocking: a caller
scheduled while the mutex is taken makes no progress), and the refresh call
itself, which installs `newTok` and expiry `now + expIn` and releases the
mutex.  `UpdateRefreshToken` performs the refresh unconditionally once the
mutex is held — it repeats no expiry check. -/
def authStep (now expIn : Int) (newTok : String) (s : AuthSysState) (i : Nat) : AuthSysState :=
  match s.pcs[i]? with
  | none => s
  | some pc =>
    match pc with
    | .start =>
      if now > s.expiresAt - 5 * 60 then { s with pcs := s.pcs.set i .needRefresh }
      else { s with pcs := s.pcs.set i .doneN }
    | .needRefresh =>
      match s.lockHeld with
      | none => { s with lockHeld := some i, pcs := s.pcs.set i .locked }
      | some _ => s
    | .locked =>
      { s with expiresAt := now + expIn, accessToken := newTok,
               lockHeld := none, pcs := s.pcs.set i .doneR }
    | .doneR => s
    | .doneN => s

/-- Run a schedule (a sequence of caller ids, each performing its next
atomic step when scheduled) from a starting state. -/
def authRun (now expIn : Int) (newTok : String) (sched : List Nat) (s : AuthSysState) :
    AuthSysState :=
  sched.foldl (authStep now expIn newTok) s

/-- Number of token-refresh requests issued so far: each caller performs at
most one refresh, recorded by reaching `doneR`. -/
def refreshCount (s : AuthSysState) : Nat :=
  s.pcs.countP (fun pc => pc == CallerPC.doneR)

/-- Every caller has finished its `ValidToken` call. -/
def allDone (s : AuthSysState) : Bool :=
  s.pcs.all (fun pc => pc == CallerPC.doneR || pc == CallerPC.doneN)

/-- Concrete counterexample input for the shape of `HandleError`'s result on
an unrecognized content type: a 429 response with content type `text/plain`
and body `"x"`. -/
def plain429 : InvalidStatusError :=
  { expected := [200], got := 429, contentType := "text/plain", content := "x" }

/-- A `json.Unmarshal` oracle that always fails. -/
def parseNone : String → Option ParsedError := fun _ => none

/-- C3: for a transport failure with an unexpected status, the normalizer
applies two post-parse corrections: a 404 whose parsed code is empty and
whose parsed message is exactly "Node does not exists" yields the
node-not-found code, and a 429 yields the too-many-requests code, with the
message defaulting to "Rate exceeded" when no message was parsed. -/
theorem handleError_applies_backend_quirks
    (parse : String → Option ParsedError) (ise : InvalidStatusError) (p : ParsedError)
    (hct : ise.contentType = "application/vnd.error+json" ∨
           ise.contentType = "application/json")
    (hp : parse ise.content = some p) :
    (ise.got = 404 → p.code = "" → p.message = "Node does not exists" →
      errCode (HandleError parse (.invalidStatus ise)) = ErrorCodeNodeNotFound) ∧
    (ise.got = 429 →
      errCode (HandleError parse (.invalidStatus ise)) = ErrorCodeTooManyRequests ∧
      (p.message = "" →
        errMessage (HandleError parse (.invalidStatus ise)) = "Rate exceeded")) := by
  have hbase : parsedBase parse ise =
      { code := p.code, message := p.message, logref := p.logref, httpClientError := none } := by
    unfold parsedBase
    rw [if_pos hct, hp]
  refine ⟨fun h404 hcode hmsg => ?_, fun h429 => ?_⟩
  · simp [HandleError, errCode, hbase, quirk404, quirk429, h404, hcode, hmsg]
  · constructor
    · simp [HandleError, errCode, hbase, quirk404, quirk429, h429]
    · intro hmsg
      simp [HandleError, errMessage, hbase, quirk404, quirk429, h429, hmsg]

/-- C3 witness: the quirks at concrete inputs — a 404 with parsed body
`{"message":"Node does not exists"}` maps to the node-not-found code, and a
429 with an empty parsed message maps to the too-many-requests code with
message "Rate exceeded". -/
theorem handleError_applies_backend_quirks_witness :
    errCode (HandleError (fun _ => some { code := "",
                                          message := "Node does not exists",
                                          logref := "L" })
      (.invalidStatus { expected := [200], got := 404,
                        contentType := "application/vnd.error+json", content := "b" })) =
      ErrorCodeNodeNotFound ∧
    (errCode (HandleError (fun _ => some { code := "", message := "", logref := "X" })
      (.invalidStatus { expected := [200], got := 429,
                        contentType := "application/json", content := "c" })) =
      ErrorCodeTooManyRequests ∧
     errMessage (HandleError (fun _ => some { code := "", message := "", logref := "X" })
      (.invalidStatus { expected := [200], got := 429,
                        contentType := "application/json", content := "c" })) = "Rate exceeded") := by
  refine ⟨?_, ?_, ?_⟩
  · exact (handleError_applies_backend_quirks _ _ _ (Or.inl rfl) rfl).1 rfl rfl rfl
  · exact ((handleError_applies_backend_quirks _ _
      { code := "", message := "", logref := "X" } (Or.inr rfl) rfl).2 rfl).1
  · exact ((handleError_applies_backend_quirks _ _
      { code := "", message := "", logref := "X" } (Or.inr rfl) rfl).2 rfl).2 rfl

/-- C8 counterexample: on a 429 response whose content type is not a
recognized JSON error type, the structured error's code is not `"unknown"`
(the claim says the unrecognized-content-type path always yields code
`"unknown"` with the raw body as message); the 429 correction forces the
too-many-requests code instead. -/
theorem handleError_unknown_not_on_429_cex :
    plain429.contentType ≠ "application/vnd.error+json" ∧
    plain429.contentType ≠ "application/json" ∧
    errCode (HandleError parseNone (.invalidStatus plain429)) ≠ "unknown" ∧
    errCode (HandleError parseNone (.invalidStatus plain429)) = ErrorCodeTooManyRequests := by
  decide

/-- C8 amended: `HandleError` returns any error that is not an
invalid-status transport failure completely unchanged; an invalid-status
failure becomes a structured error retaining the raw failure; and when the
content type is not a recognized JSON error type or the body fails to
parse, the structured error has code `"unknown"` and message equal to the
raw body text — except that a 429 status then forces the too-many-requests
code, with an empty raw body yielding the message "Rate exceeded". -/
theorem handleError_passthrough_and_unknown
    (parse : String → Option ParsedError) (cde : CloudDriveError) (msg : String)
    (ise : InvalidStatusError)
    (hraw : ¬ (ise.contentType = "application/vnd.error+json" ∨
               ise.contentType = "application/json") ∨
            parse ise.content = none) :
    HandleError parse (.cloudDrive cde) = .cloudDrive cde ∧
    HandleError parse (.other msg) = .other msg ∧
    (∃ c, HandleError parse (.invalidStatus ise) = .cloudDrive c ∧
          c.httpClientError = some ise) ∧
    (ise.got ≠ 429 →
      HandleError parse (.invalidStatus ise) =
        .cloudDrive { code := "unknown", message := ise.content, logref := "",
                      httpClientError := some ise }) ∧
    (ise.got = 429 →
      HandleError parse (.invalidStatus ise) =
        .cloudDrive { code := ErrorCodeTooManyRequests,
                      message := if ise.content = "" then "Rate exceeded" else ise.content,
                      logref := "", httpClientError := some ise }) := by
  have hbase : parsedBase parse ise =
      { code := "unknown", message := ise.content, logref := "", httpClientError := none } := by
    unfold parsedBase
    rcases hraw with hct | hp
    · rw [if_neg hct]
    · by_cases hct : ise.contentType = "application/vnd.error+json" ∨
        ise.contentType = "application/json"
      · rw [if_pos hct, hp]
      · rw [if_neg hct]
  refine ⟨rfl, rfl, ?_, fun hne => ?_, fun h429 => ?_⟩
  · exact ⟨_, rfl, rfl⟩
  · simp [HandleError, hbase, quirk404, quirk429, hne, ErrorCodeNodeNotFound]
  · simp [HandleError, hbase, quirk404, quirk429, h429]

/-- C8 amended witness: the amended characterization evaluated at concrete
inputs — a non-transport error passes through, and a 503 `text/html`
response with body `"oops"` normalizes to code `"unknown"` and message
`"oops"`. -/
theorem handleError_passthrough_and_unknown_witness :
    HandleError parseNone (.other "net down") = .other "net down" ∧
    HandleError parseNone
        (.invalidStatus { expected := [200], got := 503, contentType := "text/html",
                          content := "oops" }) =
      .cloudDrive { code := "unknown", message := "oops", logref := "",
                    httpClientError := some { expected := [200], got := 503,
                                              contentType := "text/html",
                                              content := "oops" } } := by
  refine ⟨?_, ?_⟩
  · exact (handleError_passthrough_and_unknown parseNone
      { code := "", message := "", logref := "", httpClientError := none } "net down"
      plain429 (Or.inr rfl)).2.1
  · exact (handleError_passthrough_and_unknown parseNone
      { code := "", message := "", logref := "", httpClientError := none } "m"
      { expected := [200], got := 503, contentType := "text/html", content := "oops" }
      (Or.inl (by decide))).2.2.2.1 (by decide)

/-- Helper: `HandleError` on an invalid-status failure with status 429
always yields a structured error carrying the too-many-requests code (the
429 correction fires last and unconditionally). -/
theorem handleError_429_code (parse : String → Option ParsedError)
    (ise : InvalidStatusError) (h : ise.got = 429) :
    ∃ cde, HandleError parse (.invalidStatus ise) = .cloudDrive cde ∧
      cde.code = ErrorCodeTooManyRequests := by
  refine ⟨_, rfl, ?_⟩
  simp [quirk429, h]

/-- Helper: on an all-429 environment the retry loop runs all remaining
iterations and ends with the normalized too-many-requests error. -/
theorem requestLoop_all_429 (parse : String → Option ParsedError)
    (env : Nat → AttemptResult) (retries : Int)
    (h429 : ∀ i : Nat, (i : Int) < retries →
      ∃ ise, env i = .dispatch (.error (.invalidStatus ise)) ∧ ise.got = 429) :
    ∀ (n : Nat) (retry : Nat), (retries - (retry : Int)).toNat = n →
      (retry : Int) < retries →
      (requestLoop parse env retries retry).2 = n ∧
      ∃ cde, (requestLoop parse env retries retry).1 =
        some (.error (.cloudDrive cde)) ∧ cde.code = ErrorCodeTooManyRequests := by
  intro n
  induction n with
  | zero => intro retry hn hlt; omega
  | succ k ih =>
    intro retry hn hlt
    obtain ⟨ise, henv, hgot⟩ := h429 retry hlt
    rw [requestLoop, dif_pos hlt, henv]
    dsimp only
    by_cases hnext : (retry : Int) + 1 < retries
    · rw [if_pos ⟨by simp [is429, hgot], hnext⟩]
      obtain ⟨h2, cde, h1, hcode⟩ := ih (retry + 1) (by omega) (by omega)
      dsimp only
      exact ⟨by omega, cde, h1, hcode⟩
    · rw [if_neg (fun hc => hnext hc.2)]
      obtain ⟨cde, heq, hcode⟩ := handleError_429_code parse ise hgot
      exact ⟨by omega, cde, by rw [heq], hcode⟩

/-- C1: for a request with a copyable body, if every attempt's dispatch
fails with an invalid-status error of status 429, then `Request` makes
exactly `MaxRetries` attempts (when at least one is allowed) and returns a
structured error whose code is the too-many-requests code. -/
theorem request_all_429_exhausts_retries (parse : String → Option ParsedError)
    (env : Nat → AttemptResult) (m : Int) (hm : 1 ≤ m)
    (h429 : ∀ i : Nat, (i : Int) < m →
      ∃ ise, env i = .dispatch (.error (.invalidStatus ise)) ∧ ise.got = 429) :
    (Request parse env m true).2 = m.toNat ∧
    ∃ cde, (Request parse env m true).1 = some (.error (.cloudDrive cde)) ∧
      cde.code = ErrorCodeTooManyRequests := by
  have h := requestLoop_all_429 parse env m h429 m.toNat 0 (by omega) (by omega)
  simpa [Request] using h

/-- C1 witness: with the default budget of 5 and every attempt answered by
a bare 429, the executor performs 5 attempts and surfaces the
too-many-requests structured error. -/
theorem request_all_429_exhausts_retries_witness :
    (Request (fun _ => none)
      (fun _ => .dispatch (.error (.invalidStatus
        { expected := [200], got := 429, contentType := "application/json",
          content := "" })))
      DefaultMaxRetries true).2 = DefaultMaxRetries.toNat ∧
    ∃ cde, (Request (fun _ => none)
      (fun _ => .dispatch (.error (.invalidStatus
        { expected := [200], got := 429, contentType := "application/json",
          content := "" })))
      DefaultMaxRetries true).1 = some (.error (.cloudDrive cde)) ∧
      cde.code = ErrorCodeTooManyRequests :=
  request_all_429_exhausts_retries _ _ DefaultMaxRetries (by decide)
    (fun _ _ => ⟨_, rfl, rfl⟩)

/-- C6: for a request whose body is not copyable, `Request` makes exactly
one attempt regardless of the environment's responses (even a 429 failure
is not retried), and that attempt's outcome is returned. -/
theorem request_noncopyable_single_attempt (parse : String → Option ParsedError)
    (env : Nat → AttemptResult) (m : Int) :
    (Request parse env m false).2 = 1 ∧ (Request parse env m false).1.isSome = true := by
  unfold Request
  rw [if_neg Bool.false_ne_true]
  rw [requestLoop, dif_pos (by norm_num : ((0 : Nat) : Int) < 1)]
  rcases henv : env 0 with e | r
  · exact ⟨rfl, rfl⟩
  · rcases r with e | resp
    · dsimp only
      rw [if_neg (fun hc => absurd hc.2 (by omega))]
      exact ⟨rfl, rfl⟩
    · exact ⟨rfl, rfl⟩

/-- C7: when an attempt's dispatch fails with any error that is not an
invalid-status error of status 429, the retry loop immediately returns that
failure normalized through `HandleError`, making no further attempt (that
iteration is the only one counted). -/
theorem request_non429_failure_immediate (parse : String → Option ParsedError)
    (env : Nat → AttemptResult) (retries : Int) (retry : Nat) (e : GoError)
    (hlt : (retry : Int) < retries)
    (henv : env retry = .dispatch (.error e))
    (hne : is429 e = false) :
    requestLoop parse env retries retry = (some (.error (HandleError parse e)), 1) := by
  rw [requestLoop, dif_pos hlt, henv]
  dsimp only
  rw [if_neg (fun hc => by simp [hne] at hc)]

/-- C7 witness: a non-transport failure ("connection reset") on the first
of five attempts is returned at once, passed through the normalizer (which
leaves it unchanged), after exactly one attempt. -/
theorem request_non429_failure_immediate_witness :
    requestLoop (fun _ => none)
      (fun _ => .dispatch (.error (.other "connection reset"))) 5 0 =
      (some (.error (.other "connection reset")), 1) :=
  request_non429_failure_immediate (fun _ => none)
    (fun _ => .dispatch (.error (.other "connection reset"))) 5 0
    (.other "connection reset") (by decide) rfl rfl

/-- Helper: whenever the loop guard holds, the loop produces a result (the
trailing panic is dead code for any started iteration). -/
theorem requestLoop_isSome (parse : String → Option ParsedError)
    (env : Nat → AttemptResult) (retries : Int) :
    ∀ (n : Nat) (retry : Nat), (retries - (retry : Int)).toNat = n →
      (retry : Int) < retries →
      (requestLoop parse env retries retry).1.isSome = true := by
  intro n
  induction n with
  | zero => intro retry hn hlt; omega
  | succ k ih =>
    intro retry hn hlt
    rw [requestLoop, dif_pos hlt]
    rcases henv : env retry with e | r
    · rfl
    · rcases r with e | resp
      · dsimp only
        by_cases hc : is429 e = true ∧ (retry : Int) + 1 < retries
        · rw [if_pos hc]
          exact ih (retry + 1) (by omega) (by omega)
        · rw [if_neg hc]
          rfl
      · rfl

/-- C9: with at least one allowed retry or a non-copyable body, `Request`
returns from inside the attempt loop, so the trailing
`panic("unreachable")` (modelled as the `none` result) is never executed;
with a non-positive `MaxRetries` and a copyable body the loop body never
runs and the panic is reached. -/
theorem request_panic_reachability (parse : String → Option ParsedError)
    (env : Nat → AttemptResult) (m : Int) (canCopy : Bool) :
    ((1 ≤ m ∨ canCopy = false) → (Request parse env m canCopy).1.isSome = true) ∧
    (m ≤ 0 → canCopy = true → Request parse env m canCopy = (none, 0)) := by
  constructor
  · intro h
    rcases h with hm | hcc
    · rcases canCopy with _ | _
      · unfold Request
        rw [if_neg Bool.false_ne_true]
        exact requestLoop_isSome parse env 1 _ 0 rfl (by norm_num)
      · unfold Request
        rw [if_pos rfl]
        exact requestLoop_isSome parse env m _ 0 rfl (by omega)
    · subst hcc
      unfold Request
      rw [if_neg Bool.false_ne_true]
      exact requestLoop_isSome parse env 1 _ 0 rfl (by norm_num)
  · intro hm hcc
    subst hcc
    unfold Request
    rw [if_pos rfl]
    rw [requestLoop, dif_neg (by omega)]

/-- C9 witness: with the default budget the executor returns from the loop,
and with a zero budget and a copyable body it falls through to the panic. -/
theorem request_panic_reachability_witness :
    (Request (fun _ => none) (fun _ => .dispatch (.ok { statusCode := 200, body := "" }))
      DefaultMaxRetries true).1.isSome = true ∧
    Request (fun _ => none) (fun _ => .dispatch (.ok { statusCode := 200, body := "" }))
      0 true = (none, 0) :=
  ⟨(request_panic_reachability (fun _ => none)
      (fun _ => .dispatch (.ok { statusCode := 200, body := "" }))
      DefaultMaxRetries true).1 (Or.inl (by decide)),
   (request_panic_reachability (fun _ => none)
      (fun _ => .dispatch (.ok { statusCode := 200, body := "" }))
      0 true).2 (by decide) rfl⟩

/-- Concrete pagination environment: the first page has no nodes but a
non-empty `nextToken`, and the next page holds one node with no further
token. -/
def emptyPageFetch : Nat → String → Except GoError Nodes
  | 0, _ => .ok { nodes := [], count := 0, nextToken := "t" }
  | _ + 1, _ => .ok { nodes := [{ id := "id1", name := "child" }], count := 1, nextToken := "" }

/-- C4 counterexample: `NodeChildren` does not keep requesting as long as
`nextToken` is non-empty — on a first page with no nodes and `nextToken`
`"t"` it stops after one request and returns `[]`, whereas the loop the
claim describes (`specNodeChildren`, continuing exactly while `nextToken`
is non-empty) issues a second request and returns that page's node. -/
theorem nodeChildren_stops_on_empty_page_cex :
    NodeChildren emptyPageFetch 10 = some (.ok [], 1) ∧
    emptyPageFetch 0 "" = .ok { nodes := [], count := 0, nextToken := "t" } ∧
    ("t" : String) ≠ "" ∧
    specNodeChildren emptyPageFetch 10 =
      some (.ok [{ id := "id1", name := "child" }], 2) := by
  decide

/-- Helper: the token chain at a successor index is the previous page's
`nextToken`. -/
theorem pageTokens_succ (pageOf : Nat → Nodes) (k : Nat) :
    pageTokens pageOf (k + 1) = (pageOf k).nextToken := rfl

/-- Helper: characterization of the children loop from any starting index
`j ≤ K`, when every page up to `K` is served successfully, all pages before
`K` are non-empty with a non-empty token, and page `K` is the first to be
empty or to carry an empty token. -/
theorem nodeChildrenLoop_pagination (fetch : Nat → String → Except GoError Nodes)
    (pageOf : Nat → Nodes) (K : Nat)
    (hfetch : ∀ i, i ≤ K → fetch i (pageTokens pageOf i) = .ok (pageOf i))
    (hbefore : ∀ i, i < K → (pageOf i).nodes ≠ [] ∧ (pageOf i).nextToken ≠ "")
    (hstop : (pageOf K).nodes = [] ∨ (pageOf K).nextToken = "") :
    ∀ (fuel j : Nat) (acc : List Node), j ≤ K → K - j < fuel →
      nodeChildrenLoop fetch j (pageTokens pageOf j) acc fuel =
        some (.ok (acc ++ (List.range' j (K + 1 - j)).flatMap fun i => (pageOf i).nodes),
              K + 1) := by
  intro fuel
  induction fuel with
  | zero => intro j acc hj hf; omega
  | succ f ih =>
    intro j acc hj hf
    simp only [nodeChildrenLoop, hfetch j hj]
    rcases Nat.lt_or_ge j K with hjK | hjK
    · obtain ⟨hne, htk⟩ := hbefore j hjK
      rw [if_neg hne, if_neg htk, ← pageTokens_succ pageOf j,
          ih (j + 1) (acc ++ (pageOf j).nodes) (by omega) (by omega)]
      have hrange : K + 1 - j = (K - j) + 1 := by omega
      rw [hrange, List.range'_succ, List.flatMap_cons, List.append_assoc]
      have hrange2 : K + 1 - (j + 1) = K - j := by omega
      rw [hrange2]
    · have hjEq : j = K := le_antisymm hj hjK
      subst hjEq
      have hrange : j + 1 - j = 1 := by omega
      rcases Classical.em ((pageOf j).nodes = []) with hnil | hnil
      · rw [if_pos hnil, hrange, List.range'_succ]
        simp [hnil]
      · rw [if_neg hnil]
        have htk : (pageOf j).nextToken = "" := by tauto
        rw [if_pos htk, hrange, List.range'_succ]
        simp

/-- C4 amended: for every parent id, `NodeChildren` keeps requesting the
next page (passing the previous page's `nextToken`) and accumulating its
nodes as long as the received page is non-empty AND its `nextToken` field
is non-empty; it stops at the first page that is empty or carries an empty
token, returning the concatenation of all received pages' nodes in request
order (an empty final page contributes nothing). -/
theorem nodeChildren_pagination (fetch : Nat → String → Except GoError Nodes)
    (pageOf : Nat → Nodes) (K fuel : Nat)
    (hfetch : ∀ i, i ≤ K → fetch i (pageTokens pageOf i) = .ok (pageOf i))
    (hbefore : ∀ i, i < K → (pageOf i).nodes ≠ [] ∧ (pageOf i).nextToken ≠ "")
    (hstop : (pageOf K).nodes = [] ∨ (pageOf K).nextToken = "")
    (hfuel : K < fuel) :
    NodeChildren fetch fuel =
      some (.ok ((List.range (K + 1)).flatMap fun i => (pageOf i).nodes), K + 1) := by
  have h := nodeChildrenLoop_pagination fetch pageOf K hfetch hbefore hstop fuel 0 []
    (Nat.zero_le K) (by omega)
  rw [List.range_eq_range']
  simpa [pageTokens] using h

/-- C4 amended witness: two full pages followed by a page with an empty
token — three requests, and the result is the three pages' nodes in
order. -/
theorem nodeChildren_pagination_witness :
    NodeChildren
      (fun i _ => if i = 0 then .ok { nodes := [{ id := "a", name := "a" }], count := 1,
                                      nextToken := "t1" }
                  else if i = 1 then .ok { nodes := [{ id := "b", name := "b" }], count := 1,
                                           nextToken := "t2" }
                  else .ok { nodes := [{ id := "c", name := "c" }], count := 1,
                             nextToken := "" }) 10 =
      some (.ok [{ id := "a", name := "a" }, { id := "b", name := "b" },
                 { id := "c", name := "c" }], 3) := by
  have h := nodeChildren_pagination
    (fun i _ => if i = 0 then .ok { nodes := [{ id := "a", name := "a" }], count := 1,
                                    nextToken := "t1" }
                else if i = 1 then .ok { nodes := [{ id := "b", name := "b" }], count := 1,
                                         nextToken := "t2" }
                else .ok { nodes := [{ id := "c", name := "c" }], count := 1,
                           nextToken := "" })
    (fun i => if i = 0 then { nodes := [{ id := "a", name := "a" }], count := 1,
                              nextToken := "t1" }
              else if i = 1 then { nodes := [{ id := "b", name := "b" }], count := 1,
                                   nextToken := "t2" }
              else { nodes := [{ id := "c", name := "c" }], count := 1, nextToken := "" })
    2 10
    (by intro i hi; interval_cases i <;> rfl)
    (by intro i hi; interval_cases i <;> exact ⟨by decide, by decide⟩)
    (Or.inr rfl) (by omega)
  simpa using h

/-- C5: `ValidToken` refreshes if and only if the current time is past the
stored expiry minus the 5-minute (300-second) margin; on a successful
refresh it returns the response's access token, replaces the stored token,
sets the expiry to `now + expires_in`, and fires the hook when present;
otherwise it returns the current token with the state unchanged and no
refresh attempted. -/
theorem validToken_refresh_behaviour (parse : String → Option ParsedError)
    (parseOauth : String → Option RefreshRespError) (now : Int)
    (rres : Except GoError RefreshResp) (a : CloudDriveAuth) :
    ((ValidToken parse parseOauth now rres a).2.2.1 = true ↔ now > a.expiresAt - 300) ∧
    (∀ resp, rres = .ok resp → now > a.expiresAt - 300 →
      ValidToken parse parseOauth now rres a =
        (.ok resp.accessToken,
         { a with accessToken := resp.accessToken, expiresAt := now + resp.expiresIn },
         true, a.hasHook)) ∧
    (¬ now > a.expiresAt - 300 →
      ValidToken parse parseOauth now rres a = (.ok a.accessToken, a, false, false)) := by
  refine ⟨⟨fun hr => ?_, fun hgt => ?_⟩, fun resp hresp hgt => ?_, fun hnot => ?_⟩
  · by_contra hnot
    have hle : ¬ now > a.expiresAt - 5 * 60 := by omega
    unfold ValidToken at hr
    rw [if_neg hle] at hr
    simp at hr
  · have hlt : now > a.expiresAt - 5 * 60 := by omega
    unfold ValidToken
    rw [if_pos hlt]
    rcases rres with e | resp
    · rfl
    · rfl
  · subst hresp
    have hlt : now > a.expiresAt - 5 * 60 := by omega
    unfold ValidToken
    rw [if_pos hlt]
    rfl
  · have hle : ¬ now > a.expiresAt - 5 * 60 := by omega
    unfold ValidToken
    rw [if_neg hle]

/-- C5 witness: with expiry 1000, a call at time 2000 (inside the margin)
and a 200 refresh response `{access_token: "tokNew", expires_in: 3600}`
returns the new token, stores it with expiry 5600, and fires the hook; a
call at time 0 returns the stored token without refreshing. -/
theorem validToken_refresh_behaviour_witness :
    ValidToken (fun _ => none) (fun _ => none) 2000
      (.ok { expiresIn := 3600, accessToken := "tokNew" })
      { clientId := "ci", clientSecret := "cs", redirectUri := "ru",
        accessToken := "tokOld", refreshToken := "rt", expiresAt := 1000,
        hasHook := true } =
      (.ok "tokNew",
       { clientId := "ci", clientSecret := "cs", redirectUri := "ru",
         accessToken := "tokNew", refreshToken := "rt", expiresAt := 5600,
         hasHook := true },
       true, true) ∧
    ValidToken (fun _ => none) (fun _ => none) 0
      (.ok { expiresIn := 3600, accessToken := "tokNew" })
      { clientId := "ci", clientSecret := "cs", redirectUri := "ru",
        accessToken := "tokOld", refreshToken := "rt", expiresAt := 1000,
        hasHook := true } =
      (.ok "tokOld",
       { clientId := "ci", clientSecret := "cs", redirectUri := "ru",
         accessToken := "tokOld", refreshToken := "rt", expiresAt := 1000,
         hasHook := true },
       false, false) := by
  constructor
  · exact (validToken_refresh_behaviour (fun _ => none) (fun _ => none) 2000
      (.ok { expiresIn := 3600, accessToken := "tokNew" })
      { clientId := "ci", clientSecret := "cs", redirectUri := "ru",
        accessToken := "tokOld", refreshToken := "rt", expiresAt := 1000,
        hasHook := true }).2.1 _ rfl (by norm_num)
  · exact (validToken_refresh_behaviour (fun _ => none) (fun _ => none) 0
      (.ok { expiresIn := 3600, accessToken := "tokNew" })
      { clientId := "ci", clientSecret := "cs", redirectUri := "ru",
        accessToken := "tokOld", refreshToken := "rt", expiresAt := 1000,
        hasHook := true }).2.2 (by norm_num)

/-- Helper: the escaping is a per-character flat map. -/
theorem goReplaceQuote_flatMap (l : List Char) :
    goReplaceQuote l =
      l.flatMap (fun c => if c = '"' then ['\\', '\\'] else [c]) := by
  induction l with
  | nil => rfl
  | cons c cs ih =>
    by_cases hc : c = '"'
    · simp [goReplaceQuote, hc, ih]
    · simp [goReplaceQuote, hc, ih]

/-- Helper: the escaping leaves quote-free text unchanged. -/
theorem goReplaceQuote_id (l : List Char) (h : ∀ c ∈ l, c ≠ '"') :
    goReplaceQuote l = l := by
  induction l with
  | nil => rfl
  | cons c cs ih =>
    have hc : c ≠ '"' := h c (List.mem_cons_self c cs)
    simp only [goReplaceQuote, if_neg hc]
    rw [ih (fun x hx => h x (List.mem_cons_of_mem c hx))]

/-- C10: `LookupNode` sends the filter
`parents:<parentId> AND name:"<esc>"` where `<esc>` is the name with every
double-quote character replaced by two backslash characters (not by a
backslash-quote escape); names containing no double quote are inserted
verbatim. -/
theorem lookupNode_filter_escaping (parentId name : String) :
    lookupNodeFilter parentId name =
      "parents:" ++ parentId ++ " AND name:\"" ++
        String.mk (name.data.flatMap fun c => if c = '"' then ['\\', '\\'] else [c]) ++
        "\"" ∧
    ((∀ c ∈ name.data, c ≠ '"') →
      lookupNodeFilter parentId name =
        "parents:" ++ parentId ++ " AND name:\"" ++ name ++ "\"") := by
  constructor
  · rw [lookupNodeFilter, goReplaceQuote_flatMap]
  · intro h
    rw [lookupNodeFilter, goReplaceQuote_id name.data h]

/-- C10 witness: a quote-free name is inserted verbatim, and the name
`a"b` becomes `a\\b` (quote replaced by two backslashes, not a
backslash-quote sequence) inside the filter. -/
theorem lookupNode_filter_escaping_witness :
    lookupNodeFilter "p" "ab" = "parents:p AND name:\"ab\"" ∧
    lookupNodeFilter "p" (String.mk ['a', '"', 'b']) =
      "parents:p AND name:\"a\\\\b\"" := by
  constructor
  · exact (lookupNode_filter_escaping "p" "ab").2 (by decide)
  · rw [(lookupNode_filter_escaping "p" (String.mk ['a', '"', 'b'])).1]
    decide

/-- Initial state for the concurrency analysis of `ValidToken`: two
callers about to run the expiry check, lock free, token long expired. -/
def twoCallersStart : AuthSysState :=
  { expiresAt := 0, accessToken := "old", lockHeld := none, pcs := [.start, .start] }

/-- C2 counterexample: two concurrent `ValidToken` callers with an expired
token, under the schedule where both run the (unlocked) expiry check before
either acquires the mutex, issue two refresh requests, not one — the mutex
serializes the refreshes but `UpdateRefreshToken` repeats no expiry check
after acquiring it.  At time 1000 with stored expiry 0 (inside the margin)
both callers finish having refreshed. -/
theorem validToken_duplicate_refresh_cex :
    (1000 : Int) > twoCallersStart.expiresAt - 300 ∧
    allDone (authRun 1000 3600 "new" [0, 1, 0, 0, 1, 1] twoCallersStart) = true ∧
    refreshCount (authRun 1000 3600 "new" [0, 1, 0, 0, 1, 1] twoCallersStart) = 2 := by
  decide

/-- Helper: a step never changes the number of callers. -/
theorem authStep_pcs_length (now expIn : Int) (newTok : String) (s : AuthSysState)
    (i : Nat) : (authStep now expIn newTok s i).pcs.length = s.pcs.length := by
  unfold authStep
  cases h : s.pcs[i]? with
  | none => rfl
  | some pc =>
    cases pc with
    | start =>
      dsimp only
      split <;> simp
    | needRefresh =>
      dsimp only
      cases s.lockHeld <;> simp
    | locked => simp
    | doneR => rfl
    | doneN => rfl

/-- Helper: a run never changes the number of callers. -/
theorem authRun_pcs_length (now expIn : Int) (newTok : String) :
    ∀ (sched : List Nat) (s : AuthSysState),
      (authRun now expIn newTok sched s).pcs.length = s.pcs.length := by
  intro sched
  induction sched with
  | nil => intro s; rfl
  | cons i rest ih =>
    intro s
    rw [authRun, List.foldl_cons, ← authRun]
    rw [ih (authStep now expIn newTok s i), authStep_pcs_length]

/-- No caller has finished yet: every program counter is in a pre-refresh
phase. -/
def noDoneYet (s : AuthSysState) : Prop :=
  ∀ pc ∈ s.pcs, pc = CallerPC.start ∨ pc = CallerPC.needRefresh ∨ pc = CallerPC.locked

/-- Helper: as long as no refresh has happened, the expiry is the initial
(expired) one and no caller has finished — preserved by every step when the
initial expiry is inside the margin. -/
theorem countP_doneR_set (l : List CallerPC) (i : Nat) (a b : CallerPC)
    (hi : l[i]? = some b) (hb : (b == CallerPC.doneR) = false)
    (ha : (a == CallerPC.doneR) = false) :
    (l.set i a).countP (fun pc => pc == CallerPC.doneR) =
      l.countP (fun pc => pc == CallerPC.doneR) := by
  obtain ⟨hlen, hget⟩ := List.getElem?_eq_some_iff.mp hi
  rw [List.countP_set _ _ _ _ hlen, hget, hb, ha]
  simp

/-- Helper: as long as no refresh has happened, the expiry is the initial
(expired) one and no caller has finished — preserved by every step when the
initial expiry is inside the margin. -/
theorem authStep_inv (now expIn : Int) (newTok : String) (e : Int)
    (hexp : now > e - 5 * 60) (s : AuthSysState) (i : Nat)
    (h : refreshCount s = 0 → s.expiresAt = e ∧ noDoneYet s) :
    refreshCount (authStep now expIn newTok s i) = 0 →
      (authStep now expIn newTok s i).expiresAt = e ∧
      noDoneYet (authStep now expIn newTok s i) := by
  intro h0
  unfold authStep at h0 ⊢
  cases hi : s.pcs[i]? with
  | none =>
    rw [hi] at h0
    exact h h0
  | some pc =>
    rw [hi] at h0
    cases pc with
    | start =>
      dsimp only at h0 ⊢
      have hcount : refreshCount s = 0 := by
        unfold refreshCount at h0 ⊢
        by_cases hch : now > s.expiresAt - 5 * 60
        · rw [if_pos hch] at h0
          dsimp only at h0
          rw [countP_doneR_set s.pcs i CallerPC.needRefresh CallerPC.start hi
            (by decide) (by decide)] at h0
          exact h0
        · rw [if_neg hch] at h0
          dsimp only at h0
          rw [countP_doneR_set s.pcs i CallerPC.doneN CallerPC.start hi
            (by decide) (by decide)] at h0
          exact h0
      obtain ⟨hexpEq, hnd⟩ := h hcount
      have hcheck : now > s.expiresAt - 5 * 60 := by omega
      rw [if_pos hcheck]
      refine ⟨hexpEq, fun pc2 hpc2 => ?_⟩
      rcases List.mem_or_eq_of_mem_set hpc2 with hmem | heq
      · exact hnd pc2 hmem
      · exact Or.inr (Or.inl heq)
    | needRefresh =>
      dsimp only at h0 ⊢
      cases hl : s.lockHeld with
      | none =>
        rw [hl] at h0
        dsimp only at h0 ⊢
        have hcount : refreshCount s = 0 := by
          unfold refreshCount at h0 ⊢
          rw [countP_doneR_set s.pcs i CallerPC.locked CallerPC.needRefresh hi
            (by decide) (by decide)] at h0
          exact h0
        obtain ⟨hexpEq, hnd⟩ := h hcount
        refine ⟨hexpEq, fun pc2 hpc2 => ?_⟩
        rcases List.mem_or_eq_of_mem_set hpc2 with hmem | heq
        · exact hnd pc2 hmem
        · exact Or.inr (Or.inr heq)
      | some j =>
        rw [hl] at h0
        exact h h0
    | locked =>
      exfalso
      dsimp only at h0
      obtain ⟨hlen, -⟩ := List.getElem?_eq_some_iff.mp hi
      have hmem : CallerPC.doneR ∈ s.pcs.set i CallerPC.doneR := by
        have hlen2 : i < (s.pcs.set i CallerPC.doneR).length := by simpa using hlen
        exact List.mem_iff_getElem.mpr ⟨i, hlen2, List.getElem_set_self hlen2⟩
      have hpos : 0 < refreshCount
          { s with expiresAt := now + expIn, accessToken := newTok, lockHeld := none,
                   pcs := s.pcs.set i CallerPC.doneR } :=
        List.countP_pos_iff.mpr ⟨CallerPC.doneR, hmem, by decide⟩
      omega
    | doneR =>
      exfalso
      have hmem : CallerPC.doneR ∈ s.pcs := List.getElem?_mem hi
      have hpos : 0 < refreshCount s :=
        List.countP_pos_iff.mpr ⟨CallerPC.doneR, hmem, by decide⟩
      dsimp only at h0
      omega
    | doneN => exact h h0

/-- Helper: the invariant carried through a whole schedule. -/
theorem authRun_inv (now expIn : Int) (newTok : String) (e : Int)
    (hexp : now > e - 5 * 60) :
    ∀ (sched : List Nat) (s : AuthSysState),
      (refreshCount s = 0 → s.expiresAt = e ∧ noDoneYet s) →
      (refreshCount (authRun now expIn newTok sched s) = 0 →
        (authRun now expIn newTok sched s).expiresAt = e ∧
        noDoneYet (authRun now expIn newTok sched s)) := by
  intro sched
  induction sched with
  | nil => intro s h; exact h
  | cons i rest ih =>
    intro s h
    rw [authRun, List.foldl_cons, ← authRun]
    exact ih (authStep now expIn newTok s i) (authStep_inv now expIn newTok e hexp s i h)

/-- C2 amended: with an expired (in-margin) token and N ≥ 1 concurrent
`ValidToken` callers all running to completion, at least one and at most N
token-refresh requests are issued.  The mutual-exclusion lock serializes
the refreshes, but because the expiry check runs outside the lock and is
not repeated after acquiring it, an adversarial interleaving makes every
caller refresh — "exactly one refresh request" does not hold. -/
theorem validToken_concurrent_refresh_bounds (now expIn : Int) (newTok : String)
    (sched : List Nat) (s0 : AuthSysState)
    (hstart : ∀ pc ∈ s0.pcs, pc = CallerPC.start)
    (hne : s0.pcs ≠ [])
    (hexp : now > s0.expiresAt - 300)
    (hdone : allDone (authRun now expIn newTok sched s0) = true) :
    1 ≤ refreshCount (authRun now expIn newTok sched s0) ∧
    refreshCount (authRun now expIn newTok sched s0) ≤ s0.pcs.length := by
  constructor
  · by_contra hlt
    have h0 : refreshCount (authRun now expIn newTok sched s0) = 0 := by omega
    obtain ⟨-, hnd⟩ := authRun_inv now expIn newTok s0.expiresAt (by omega) sched s0
      (fun _ => ⟨rfl, fun pc hpc => Or.inl (hstart pc hpc)⟩) h0
    have hlen : (authRun now expIn newTok sched s0).pcs.length = s0.pcs.length :=
      authRun_pcs_length now expIn newTok sched s0
    have hne2 : (authRun now expIn newTok sched s0).pcs ≠ [] := by
      intro hnil
      rw [hnil] at hlen
      exact hne (List.eq_nil_of_length_eq_zero hlen.symm)
    obtain ⟨pc, hpc⟩ := List.exists_mem_of_ne_nil _ hne2
    have hall := List.all_eq_true.mp hdone pc hpc
    rcases hnd pc hpc with h1 | h1 | h1 <;> subst h1 <;> simp at hall
  · have hlen : (authRun now expIn newTok sched s0).pcs.length = s0.pcs.length :=
      authRun_pcs_length now expIn newTok sched s0
    calc refreshCount (authRun now expIn newTok sched s0)
        ≤ (authRun now expIn newTok sched s0).pcs.length := List.countP_le_length _
      _ = s0.pcs.length := hlen

/-- C2 amended witness: the two-caller instance of the bounds — the
duplicate-refresh schedule stays within [1, 2] refreshes. -/
theorem validToken_concurrent_refresh_bounds_witness :
    1 ≤ refreshCount (authRun 1000 3600 "new" [0, 1, 0, 0, 1, 1] twoCallersStart) ∧
    refreshCount (authRun 1000 3600 "new" [0, 1, 0, 0, 1, 1] twoCallersStart) ≤
      twoCallersStart.pcs.length :=
  validToken_concurrent_refresh_bounds 1000 3600 "new" [0, 1, 0, 0, 1, 1]
    twoCallersStart (by decide) (by decide) (by decide) (by decide)

end CloudDriveClient
